import Mathlib

/-!
Verification of the usage aggregation and periodic-collection pipeline of the
`pricepertoken-ai-coding-tracker` repository.

The Python sources are shallowly embedded here:
* `cursor_collector.py` — `get_current_billing_period`, `should_fetch_usage`,
  `CursorCollector.parse_csv_data`, `CursorCollector.calculate_billing_period_usage`;
* `collector.py` — `UsageCollector.aggregate_cursor_data_for_api`,
  `UsageCollector.aggregate_claude_data_for_api`.

Modelling conventions:
* Python decimal numbers (costs, clock readings) are modelled as `ℚ`;
  Python `int` as `Int`; strings as `String` manipulated through their
  character lists so that everything reduces in the kernel.
* A CSV file, already split into records by `csv.DictReader`, is a list of
  rows; a row is an association list from column names to values, where a
  stored `none` models Python's `None` (the `restval` used by `DictReader`
  for a short row) and an absent key models a column that is missing from
  the header.
* `datetime` values are tuples of calendar fields; aware datetimes carry a
  UTC offset in minutes.  Comparison of naive datetimes is lexicographic on
  the fields; comparison of aware datetimes compares absolute microseconds;
  comparing naive with aware is an error (Python raises `TypeError`), which
  the embedding surfaces as `none`.
* Python dictionaries (which preserve insertion order) are modelled as
  insertion-ordered association lists updated by `upsertWith`.
-/

/-- Strict lexicographic order on lists of naturals (used to compare
datetime field tuples, mirroring Python's `datetime` comparison). -/
def lexLt : List Nat → List Nat → Bool
  | _, [] => false
  | [], _ :: _ => true
  | a :: as, b :: bs => if a < b then true else if a = b then lexLt as bs else false

/-- Non-strict lexicographic order on lists of naturals. -/
def lexLe : List Nat → List Nat → Bool
  | [], _ => true
  | _ :: _, [] => false
  | a :: as, b :: bs => if a < b then true else if a = b then lexLe as bs else false

/-- First-match lookup in an insertion-ordered association list
(models Python `dict` access `d[k]` / `k in d`). -/
def lookupA {α : Type} (k : String) : List (String × α) → Option α
  | [] => none
  | (k1, v) :: rest => if k1 = k then some v else lookupA k rest

/-- Update an insertion-ordered association list the way the Python sources
update a `dict`: if `k` is absent, insert the default `i` and apply the
update `f` to it; otherwise apply `f` to the stored value in place. -/
def upsertWith {α : Type} (k : String) (i : α) (f : α → α) :
    List (String × α) → List (String × α)
  | [] => [(k, f i)]
  | (k1, v) :: rest =>
    if k1 = k then (k1, f v) :: rest else (k1, v) :: upsertWith k i f rest

/-- ASCII digit test. -/
def isDigitCh (c : Char) : Bool := '0' ≤ c && c ≤ '9'

/-- Numeric value of an ASCII digit. -/
def digitVal (c : Char) : Nat := c.toNat - '0'.toNat

/-- Natural number denoted by a list of ASCII digits. -/
def digitsToNat (cs : List Char) : Nat := cs.foldl (fun n c => 10 * n + digitVal c) 0

/-- Whitespace stripped by Python's `int()` / `float()` conversions. -/
def isPySpace (c : Char) : Bool := c == ' ' || c == '\t' || c == '\n' || c == '\r'

/-- Strip leading and trailing whitespace from a character list. -/
def stripSpaces (cs : List Char) : List Char :=
  ((cs.dropWhile isPySpace).reverse.dropWhile isPySpace).reverse

/-- Python `int(s)` on a string: optional sign followed by at least one
digit, surrounding whitespace ignored; `none` models a raised `ValueError`. -/
def pyIntOfChars (cs : List Char) : Option Int :=
  match stripSpaces cs with
  | '-' :: ds => if !ds.isEmpty && ds.all isDigitCh then some (-(digitsToNat ds : Int)) else none
  | '+' :: ds => if !ds.isEmpty && ds.all isDigitCh then some (digitsToNat ds : Int) else none
  | ds => if !ds.isEmpty && ds.all isDigitCh then some (digitsToNat ds : Int) else none

/-- Python `int(s)` (see `pyIntOfChars`). -/
def pyIntOfStr (s : String) : Option Int := pyIntOfChars s.data

/-- Value of a decimal fraction part (digits after the point). -/
def fracVal (ds : List Char) : ℚ := (digitsToNat ds : ℚ) / ((10 : ℚ) ^ ds.length)

/-- Scale factor denoted by a float exponent suffix (after `e`/`E`),
consuming the whole remainder. -/
def expVal (cs : List Char) : Option ℚ :=
  match cs with
  | '+' :: ds => if !ds.isEmpty && ds.all isDigitCh then some ((10 : ℚ) ^ digitsToNat ds) else none
  | '-' :: ds => if !ds.isEmpty && ds.all isDigitCh then some (((10 : ℚ) ^ digitsToNat ds)⁻¹) else none
  | ds => if !ds.isEmpty && ds.all isDigitCh then some ((10 : ℚ) ^ digitsToNat ds) else none

/-- Unsigned body of a Python float literal: `digits`, `digits.digits`,
`.digits`, `digits.`, each optionally followed by an exponent. -/
def pyFloatBody (cs : List Char) : Option ℚ :=
  let intPart := cs.takeWhile isDigitCh
  let rest := cs.dropWhile isDigitCh
  match rest with
  | [] => if intPart.isEmpty then none else some (digitsToNat intPart : ℚ)
  | '.' :: rest2 =>
    let frac := rest2.takeWhile isDigitCh
    let rest3 := rest2.dropWhile isDigitCh
    if intPart.isEmpty && frac.isEmpty then none
    else
      match rest3 with
      | [] => some ((digitsToNat intPart : ℚ) + fracVal frac)
      | e :: rest4 =>
        if e == 'e' || e == 'E' then
          (expVal rest4).map (fun q => ((digitsToNat intPart : ℚ) + fracVal frac) * q)
        else none
  | e :: rest2 =>
    if (e == 'e' || e == 'E') && !intPart.isEmpty then
      (expVal rest2).map (fun q => (digitsToNat intPart : ℚ) * q)
    else none

/-- Python `float(s)` on decimal literals (the only shapes the cost column
can carry); `none` models a raised `ValueError`. -/
def pyFloatOfStr (s : String) : Option ℚ :=
  match stripSpaces s.data with
  | '-' :: rest => (pyFloatBody rest).map (fun q => -q)
  | '+' :: rest => pyFloatBody rest
  | rest => pyFloatBody rest

/-- Python `s.strip('"')`: remove leading and trailing double quotes. -/
def stripQuotes (s : String) : String :=
  String.mk (((s.data.dropWhile (· == '"')).reverse.dropWhile (· == '"')).reverse)

/-- Python `s.replace('$', '')`. -/
def removeDollar (s : String) : String := String.mk (s.data.filter (· != '$'))

/-- Python `s.replace('Z', '+00:00')` (every `Z`, as in the source). -/
def replaceZ (s : String) : String :=
  String.mk ((s.data.map (fun c => if c == 'Z' then "+00:00".data else [c])).flatten)

/-- Python `s.split('T')[0] if 'T' in s else s` — the date-key fallback in
`aggregate_cursor_data_for_api`. -/
def dateFallbackKey (s : String) : String := String.mk (s.data.takeWhile (· != 'T'))

/-- Two-digit zero-padded rendering (as `datetime.date.isoformat`). -/
def pad2 (n : Nat) : String := if n < 10 then "0" ++ toString n else toString n

/-- Four-digit zero-padded rendering (as `datetime.date.isoformat`). -/
def pad4 (n : Nat) : String :=
  if n < 10 then "000" ++ toString n
  else if n < 100 then "00" ++ toString n
  else if n < 1000 then "0" ++ toString n
  else toString n

/-- A Python `datetime`'s calendar fields (microsecond resolution).  The
timezone, when present, is carried separately (see `PyDateTime`). -/
structure DT where
  year : Nat
  month : Nat
  day : Nat
  hour : Nat
  minute : Nat
  second : Nat
  usec : Nat
  deriving DecidableEq, Repr

/-- Field tuple of a datetime, most significant first. -/
def DT.toList (d : DT) : List Nat :=
  [d.year, d.month, d.day, d.hour, d.minute, d.second, d.usec]

/-- Naive datetime `≤` (Python compares field tuples lexicographically). -/
def dtLe (a b : DT) : Bool := lexLe a.toList b.toList

/-- Naive datetime `<`. -/
def dtLt (a b : DT) : Bool := lexLt a.toList b.toList

/-- Gregorian leap-year test. -/
def isLeap (y : Nat) : Bool := y % 4 == 0 && (y % 100 != 0 || y % 400 == 0)

/-- Number of days in a month, as validated by `datetime.replace`. -/
def daysInMonth (y m : Nat) : Nat :=
  if m = 2 then (if isLeap y then 29 else 28)
  else if m = 4 ∨ m = 6 ∨ m = 9 ∨ m = 11 then 30 else 31

/-- Days from 0000-03-01 to the given civil date (valid for `y ≥ 1`);
the standard days-from-civil algorithm, used to give aware datetimes an
absolute timeline. -/
def daysFromCivil (y m d : Nat) : Nat :=
  let y2 := if m ≤ 2 then y - 1 else y
  let era := y2 / 400
  let yoe := y2 % 400
  let mp := (m + 9) % 12
  let doy := (153 * mp + 2) / 5 + (d - 1)
  let doe := yoe * 365 + yoe / 4 - yoe / 100 + doy
  era * 146097 + doe

/-- Absolute microseconds of a datetime with a UTC offset in minutes. -/
def dtAbsUS (d : DT) (tzMin : Int) : Int :=
  ((((daysFromCivil d.year d.month d.day : Int) * 1440
      + (d.hour : Int) * 60 + (d.minute : Int)) - tzMin) * 60
    + (d.second : Int)) * 1000000 + (d.usec : Int)

/-- A Python datetime: naive (`none`) or aware of a UTC offset in minutes. -/
abbrev PyDateTime := DT × Option Int

/-- Python `a <= b` on datetimes: lexicographic when both are naive,
absolute-time when both are aware, and a `TypeError` (`none`) when mixed. -/
def pyLe : PyDateTime → PyDateTime → Option Bool
  | (a, none), (b, none) => some (dtLe a b)
  | (a, some ta), (b, some tb) => some (decide (dtAbsUS a ta ≤ dtAbsUS b tb))
  | _, _ => none

/-- Read exactly `n` ASCII digits from the front of a character list. -/
def readFixed (n : Nat) (cs : List Char) : Option (Nat × List Char) :=
  let ds := cs.take n
  if ds.length = n && ds.all isDigitCh then some (digitsToNat ds, cs.drop n) else none

/-- Consume one expected character. -/
def expectCh (c : Char) (cs : List Char) : Option (List Char) :=
  match cs with
  | c2 :: rest => if c2 == c then some rest else none
  | [] => none

/-- Read a fractional-second part (1 to 6 digits), scaled to microseconds. -/
def readFrac (cs : List Char) : Option (Nat × List Char) :=
  let ds := cs.takeWhile isDigitCh
  if ds.isEmpty || decide (ds.length > 6) then none
  else some (digitsToNat ds * 10 ^ (6 - ds.length), cs.dropWhile isDigitCh)

/-- Read a `±HH:MM` UTC offset consuming the whole remainder, in minutes. -/
def readOffset (cs : List Char) : Option Int :=
  match cs with
  | [] => none
  | sgn :: rest =>
    if sgn == '+' || sgn == '-' then
      match readFixed 2 rest with
      | none => none
      | some (oh, rest2) =>
        match expectCh ':' rest2 with
        | none => none
        | some rest3 =>
          match readFixed 2 rest3 with
          | none => none
          | some (om, rest4) =>
            if rest4.isEmpty && decide (oh ≤ 23) && decide (om ≤ 59) then
              some (if sgn == '-' then -((oh * 60 + om : Nat) : Int) else ((oh * 60 + om : Nat) : Int))
            else none
    else none

/-- Read an ISO time `HH:MM[:SS[.ffffff]]` with an optional trailing UTC
offset, consuming the whole remainder. -/
def readTime (cs : List Char) : Option (Nat × Nat × Nat × Nat × Option Int) :=
  match readFixed 2 cs with
  | none => none
  | some (hh, r1) =>
    match expectCh ':' r1 with
    | none => none
    | some r2 =>
      match readFixed 2 r2 with
      | none => none
      | some (mm, r3) =>
        if hh ≤ 23 ∧ mm ≤ 59 then
          match r3 with
          | [] => some (hh, mm, 0, 0, none)
          | ':' :: r4 =>
            match readFixed 2 r4 with
            | none => none
            | some (ss, r5) =>
              if ss ≤ 59 then
                match r5 with
                | [] => some (hh, mm, ss, 0, none)
                | '.' :: r6 =>
                  match readFrac r6 with
                  | none => none
                  | some (us, r7) =>
                    if r7.isEmpty then some (hh, mm, ss, us, none)
                    else (readOffset r7).map (fun tz => (hh, mm, ss, us, some tz))
                | _ => (readOffset r5).map (fun tz => (hh, mm, ss, 0, some tz))
              else none
          | _ => (readOffset r3).map (fun tz => (hh, mm, 0, 0, some tz))
        else none

/-- `datetime.fromisoformat` on the ISO-8601 shapes the collector meets:
`YYYY-MM-DD`, optionally followed by `T` or a space and
`HH:MM[:SS[.ffffff]][±HH:MM]`.  Calendar fields are range-checked as
CPython does; `none` models a raised `ValueError`. -/
def parseIso (s : String) : Option PyDateTime :=
  match readFixed 4 s.data with
  | none => none
  | some (y, r1) =>
    match expectCh '-' r1 with
    | none => none
    | some r2 =>
      match readFixed 2 r2 with
      | none => none
      | some (mo, r3) =>
        match expectCh '-' r3 with
        | none => none
        | some r4 =>
          match readFixed 2 r4 with
          | none => none
          | some (dy, r5) =>
            if 1 ≤ mo ∧ mo ≤ 12 ∧ 1 ≤ dy ∧ dy ≤ daysInMonth y mo then
              match r5 with
              | [] => some (⟨y, mo, dy, 0, 0, 0, 0⟩, none)
              | sep :: r6 =>
                if sep == 'T' || sep == ' ' then
                  (readTime r6).map (fun q => (⟨y, mo, dy, q.1, q.2.1, q.2.2.1, q.2.2.2.1⟩, q.2.2.2.2))
                else none
            else none

/-- A usage event as built by `CursorCollector.parse_csv_data`
(`cursor_collector.py`, lines 428-440). -/
structure UsageEvent where
  date : String
  user : String
  kind : String
  model : String
  input_with_cache : Int
  input_without_cache : Int
  cache_read : Int
  output : Int
  total_tokens : Int
  cost : ℚ
  included_in_subscription : Bool
  deriving DecidableEq, Repr

/-- One record yielded by `csv.DictReader`: column name to value, where a
stored `none` is Python's `None` (a short row's `restval`) and an absent
key is a column missing from the header. -/
abbrev CsvRow := List (String × Option String)

/-- `row.get(col, default)` for the string columns, followed by
`.strip('"')`: an absent column gives the default `''`; a `None` value
makes `.strip` raise (`none`). -/
def getStrField (r : CsvRow) (k : String) : Option String :=
  match lookupA k r with
  | none => some (stripQuotes "")
  | some none => none
  | some (some s) => some (stripQuotes s)

/-- `int(row.get(col, 0))` for the numeric columns: an absent column gives
`int(0) = 0`; a `None` value or an unparseable string makes `int` raise
(`none`). -/
def getIntField (r : CsvRow) (k : String) : Option Int :=
  match lookupA k r with
  | none => some 0
  | some none => none
  | some (some s) => pyIntOfStr s

/-- The sentinel cost values meaning "covered by subscription"
(`cursor_collector.py`, line 419). -/
def isSentinelCost (s : String) : Bool := s == "Included" || s == "0" || s == ""

/-- The body of the per-row `try` block of `parse_csv_data`
(`cursor_collector.py`, lines 405-444): any failing field extraction skips
the row (`none`); otherwise the row becomes a `UsageEvent`. -/
def parseRow (r : CsvRow) : Option UsageEvent := do
  let date ← getStrField r "Date"
  let user ← getStrField r "User"
  let kind ← getStrField r "Kind"
  let model ← getStrField r "Model"
  let iwc ← getIntField r "Input (w/ Cache Write)"
  let iwo ← getIntField r "Input (w/o Cache Write)"
  let cr ← getIntField r "Cache Read"
  let op ← getIntField r "Output"
  let tt ← getIntField r "Total Tokens"
  let costStr ← getStrField r "Cost ($)"
  let included := isSentinelCost costStr
  let cost : ℚ := if included then 0 else (pyFloatOfStr (removeDollar costStr)).getD 0
  some ⟨date, user, kind, model, iwc, iwo, cr, op, tt, cost, included⟩

/-- The `summary` dictionary of `parse_csv_data`
(`cursor_collector.py`, lines 451-461).  `models_used` and `kind` are
built with `list(set(...))`, whose order CPython leaves unspecified; they
are modelled as duplicate-free lists via `List.dedup`. -/
structure CsvSummary where
  total_events : Nat
  total_tokens : Int
  total_cost : ℚ
  models_used : List String
  kinds : List String
  date_range_start : Option String
  date_range_end : Option String
  deriving DecidableEq, Repr

/-- Return value of `parse_csv_data` (the raw CSV echo is omitted). -/
structure CsvParseResult where
  usage_events : List UsageEvent
  summary : CsvSummary
  deriving DecidableEq, Repr

/-- One iteration of the row loop of `parse_csv_data`
(`cursor_collector.py`, lines 404-447): append the parsed event and grow
the running totals, or skip the row when extraction raised. -/
def parseStep (acc : List UsageEvent × Int × ℚ) (r : CsvRow) : List UsageEvent × Int × ℚ :=
  match parseRow r with
  | none => acc
  | some e => (acc.1 ++ [e], acc.2.1 + e.total_tokens, acc.2.2 + e.cost)

/-- `CursorCollector.parse_csv_data` (`cursor_collector.py`, lines
385-463) over the `DictReader` rows: rows whose extraction raises are
skipped, and the running totals accumulate exactly the kept rows. -/
def parse_csv_data (rows : List CsvRow) : CsvParseResult :=
  let st := rows.foldl parseStep ([], 0, 0)
  let events := st.1
  { usage_events := events
    summary :=
      { total_events := events.length
        total_tokens := st.2.1
        total_cost := st.2.2
        models_used := (events.map (·.model)).dedup
        kinds := ((events.filter (fun e => e.kind != "")).map (·.kind)).dedup
        date_range_start := (events.head?).map (·.date)
        date_range_end := (events.getLast?).map (·.date) } }

/-- The date key of `aggregate_cursor_data_for_api` (`collector.py`,
lines 96-102): ISO-parse the date with `Z` replaced by `+00:00` and render
`date().isoformat()`; on failure fall back to splitting at the first `T`. -/
def dateKeyOfStr (s : String) : String :=
  match parseIso (replaceZ s) with
  | some (d, _) => pad4 d.year ++ "-" ++ pad2 d.month ++ "-" ++ pad2 d.day
  | none => dateFallbackKey s

/-- The aggregation key `f"{date_key}_{model}_{kind}_{included_in_subscription}"`
(`collector.py`, line 109); Python renders the boolean as `True`/`False`. -/
def aggKey (e : UsageEvent) : String :=
  dateKeyOfStr e.date ++ "_" ++ e.model ++ "_" ++ e.kind ++ "_"
    ++ (if e.included_in_subscription then "True" else "False")

/-- One aggregate record of `aggregate_cursor_data_for_api`
(`collector.py`, lines 113-125). -/
structure CursorAggRecord where
  date : String
  model : String
  kind : String
  input_with_cache : Int
  input_without_cache : Int
  cache_read : Int
  output : Int
  total_tokens : Int
  cost : ℚ
  requests : Nat
  included_in_subscription : Bool
  deriving DecidableEq, Repr

/-- The freshly initialized record for a key's first event
(`collector.py`, lines 112-125): descriptive fields from that event,
metrics zero. -/
def newCursorRecord (e : UsageEvent) : CursorAggRecord :=
  ⟨dateKeyOfStr e.date, e.model, e.kind, 0, 0, 0, 0, 0, 0, 0, e.included_in_subscription⟩

/-- The `+=` block of `aggregate_cursor_data_for_api`
(`collector.py`, lines 127-134). -/
def addEventToRecord (e : UsageEvent) (r : CursorAggRecord) : CursorAggRecord :=
  { r with
    input_with_cache := r.input_with_cache + e.input_with_cache
    input_without_cache := r.input_without_cache + e.input_without_cache
    cache_read := r.cache_read + e.cache_read
    output := r.output + e.output
    total_tokens := r.total_tokens + e.total_tokens
    cost := r.cost + e.cost
    requests := r.requests + 1 }

/-- `UsageCollector.aggregate_cursor_data_for_api` (`collector.py`, lines
87-144), as the insertion-ordered keyed dictionary it builds; the payload's
`daily_aggregates` list is its values in order, and `collection_info` /
`metadata` are passed through verbatim. -/
def aggregate_cursor_data_for_api (events : List UsageEvent) : List (String × CursorAggRecord) :=
  events.foldl (fun acc e => upsertWith (aggKey e) (newCursorRecord e) (addEventToRecord e) acc) []

/-- Field-wise addition of the seven additive metrics of two aggregate
records, keeping the first record's descriptive fields (the merge step the
specification describes for combining two batch aggregations). -/
def addRecordMetrics (a b : CursorAggRecord) : CursorAggRecord :=
  { a with
    input_with_cache := a.input_with_cache + b.input_with_cache
    input_without_cache := a.input_without_cache + b.input_without_cache
    cache_read := a.cache_read + b.cache_read
    output := a.output + b.output
    total_tokens := a.total_tokens + b.total_tokens
    cost := a.cost + b.cost
    requests := a.requests + b.requests }

/-- Merge one keyed record into an aggregation by field-wise metric
addition (insert when the key is new). -/
def mergeInto (acc : List (String × CursorAggRecord)) (k : String) (r : CursorAggRecord) :
    List (String × CursorAggRecord) :=
  match acc with
  | [] => [(k, r)]
  | (k1, v) :: rest =>
    if k1 = k then (k1, addRecordMetrics v r) :: rest else (k1, v) :: mergeInto rest k r

/-- Merge two keyed aggregations by field-wise metric addition per key. -/
def mergeAgg (a b : List (String × CursorAggRecord)) : List (String × CursorAggRecord) :=
  b.foldl (fun acc kv => mergeInto acc kv.1 kv.2) a

/-- The seven additive metric fields of an aggregate record. -/
def CursorAggRecord.metrics (r : CursorAggRecord) :
    Int × Int × Int × Int × Int × ℚ × Nat :=
  (r.input_with_cache, r.input_without_cache, r.cache_read, r.output,
   r.total_tokens, r.cost, r.requests)

/-- `datetime.fromisoformat(event['date'].replace('Z', '+00:00'))`
(`cursor_collector.py`, line 130; `collector.py`, line 98). -/
def parseEventDate (s : String) : Option PyDateTime := parseIso (replaceZ s)

/-- Whether an event is counted by `calculate_billing_period_usage`
(`cursor_collector.py`, lines 130-133): its date must parse and satisfy
`period_start <= event_date <= period_end`; a parse failure or a
`TypeError` from a naive/aware comparison skips the event, and the chained
comparison short-circuits after a false first half. -/
def eventInPeriod (period_start period_end : PyDateTime) (e : UsageEvent) : Bool :=
  match parseEventDate e.date with
  | none => false
  | some d =>
    match pyLe period_start d with
    | none => false
    | some false => false
    | some true =>
      match pyLe d period_end with
      | some b => b
      | none => false

/-- Per-model accumulator of `calculate_billing_period_usage`
(`cursor_collector.py`, lines 142-149). -/
structure ModelStats where
  requests : Nat
  tokens : Int
  cost : ℚ
  deriving DecidableEq, Repr

/-- Return value of `calculate_billing_period_usage`
(`cursor_collector.py`, lines 155-163); the echoed period bounds are
omitted and `events_count` is the length of `period_events`. -/
structure BillingSummary where
  total_requests : Nat
  total_tokens : Int
  total_cost : ℚ
  model_usage : List (String × ModelStats)
  events_count : Nat
  deriving DecidableEq, Repr

/-- The per-model `+=` block (`cursor_collector.py`, lines 147-149). -/
def addEventStats (e : UsageEvent) (m : ModelStats) : ModelStats :=
  ⟨m.requests + 1, m.tokens + e.total_tokens, m.cost + e.cost⟩

/-- One iteration of the event loop of `calculate_billing_period_usage`
(`cursor_collector.py`, lines 127-153). -/
def billingStep (period_start period_end : PyDateTime) (s : BillingSummary) (e : UsageEvent) :
    BillingSummary :=
  if eventInPeriod period_start period_end e then
    { total_requests := s.total_requests + 1
      total_tokens := s.total_tokens + e.total_tokens
      total_cost := s.total_cost + e.cost
      model_usage := upsertWith e.model ⟨0, 0, 0⟩ (addEventStats e) s.model_usage
      events_count := s.events_count + 1 }
  else s

/-- `CursorCollector.calculate_billing_period_usage`
(`cursor_collector.py`, lines 109-163). -/
def calculate_billing_period_usage (events : List UsageEvent)
    (period_start period_end : PyDateTime) : BillingSummary :=
  events.foldl (billingStep period_start period_end) ⟨0, 0, 0, [], 0⟩

/-- `period_start.replace(year=..., month=...)` advancing to the next
calendar month (`cursor_collector.py`, lines 21-28): `none` models the
`ValueError` `datetime.replace` raises when the kept day is invalid for
the target month. -/
def monthSucc (d : DT) : Option DT :=
  let ym : Nat × Nat := if d.month = 12 then (d.year + 1, 1) else (d.year, d.month + 1)
  if 1 ≤ ym.2 ∧ ym.2 ≤ 12 ∧ 1 ≤ d.day ∧ d.day ≤ daysInMonth ym.1 ym.2 then
    some { d with year := ym.1, month := ym.2 }
  else none

/-- Outcome of one run of `get_current_billing_period`: a returned pair of
period bounds, or the `ValueError` raised inside the loop. -/
inductive BillingPeriodResult where
  | ok (period_start period_end : DT)
  | valueError
  deriving DecidableEq, Repr

/-- `get_current_billing_period` (`cursor_collector.py`, lines 16-32).
The unbounded `while True` loop is embedded with explicit fuel: `none`
means the loop has not returned within `fuel` iterations (the Python loop
runs forever exactly when every fuel yields `none`).  Both datetimes are
assumed naive or equally aware, so comparison is the lexicographic
`dtLe` / `dtLt`. -/
def get_current_billing_period (fuel : Nat) (period_start now : DT) :
    Option BillingPeriodResult :=
  match fuel with
  | 0 => none
  | fuel + 1 =>
    match monthSucc period_start with
    | none => some .valueError
    | some period_end =>
      if dtLe period_start now && dtLt now period_end then some (.ok period_start period_end)
      else get_current_billing_period fuel period_end now

/-- `12 * year + month`: a month counter used to measure the loop of
`get_current_billing_period`. -/
def monthIndex (d : DT) : Nat := 12 * d.year + d.month

/-- Enough fuel for `get_current_billing_period` to reach the period
containing `now` when `anchor ≤ now`. -/
def billingFuel (anchor now : DT) : Nat := monthIndex now + 2 - monthIndex anchor

/-- The value `get_current_billing_period` is specified to return: a pair
`(ps, pe)` with `pe` one calendar month after `ps` and `ps ≤ now < pe`. -/
def billingOk (now : DT) : Option BillingPeriodResult → Prop
  | some (.ok ps pe) => monthSucc ps = some pe ∧ dtLe ps now = true ∧ dtLt now pe = true
  | _ => False

/-- `should_fetch_usage` (`cursor_collector.py`, lines 35-46); the reading
of `time.time()` is passed explicitly as `now`. -/
def should_fetch_usage (now last_fetch_time : ℚ) (min_interval_seconds : ℚ) : Bool :=
  decide (now - last_fetch_time > min_interval_seconds)

/-- One entry of a day's `modelBreakdowns` in the ccusage JSON; every field
may be absent (`collector.py` reads all of them with `.get(..., 0)`). -/
structure ModelBreakdown where
  modelName : Option String
  inputTokens : Option Int
  outputTokens : Option Int
  cacheCreationTokens : Option Int
  cacheReadTokens : Option Int
  totalTokens : Option Int
  cost : Option ℚ
  deriving DecidableEq, Repr

/-- The per-model metric sums of `aggregate_claude_data_for_api`
(`collector.py`, lines 195-210). -/
structure ClaudeMetrics where
  input_tokens : Int
  output_tokens : Int
  cache_creation_tokens : Int
  cache_read_tokens : Int
  total_tokens : Int
  cost : ℚ
  deriving DecidableEq, Repr

/-- One entry of the ccusage `daily` list: its date (absent gives `None`,
stored as-is) and its `modelBreakdowns` (a missing key defaults to the
empty list); a `none` inside `modelBreakdowns` models a non-dict entry. -/
structure CcusageDay where
  date : Option String
  modelBreakdowns : List (Option ModelBreakdown)
  deriving DecidableEq, Repr

/-- The ccusage result consumed by `aggregate_claude_data_for_api`: the
`daily` list (a `none` entry models a non-dict element) and the
pass-through `totals` dictionary. -/
structure CcusageData where
  daily : List (Option CcusageDay)
  totals : List (String × ℚ)
  deriving DecidableEq, Repr

/-- All-zero metric bundle (`collector.py`, lines 195-202). -/
def zeroClaudeMetrics : ClaudeMetrics := ⟨0, 0, 0, 0, 0, 0⟩

/-- The `+=` block of `aggregate_claude_data_for_api`
(`collector.py`, lines 204-210): absent fields default to zero. -/
def addBreakdown (b : ModelBreakdown) (m : ClaudeMetrics) : ClaudeMetrics :=
  ⟨m.input_tokens + b.inputTokens.getD 0,
   m.output_tokens + b.outputTokens.getD 0,
   m.cache_creation_tokens + b.cacheCreationTokens.getD 0,
   m.cache_read_tokens + b.cacheReadTokens.getD 0,
   m.total_tokens + b.totalTokens.getD 0,
   m.cost + b.cost.getD 0⟩

/-- The per-day `model_aggregates` dictionary of
`aggregate_claude_data_for_api` (`collector.py`, lines 186-210): group the
day's breakdown entries by `modelName` (missing names default to
`"unknown"`, non-dict entries are skipped) and sum their metrics. -/
def modelAggregatesForDay (bs : List (Option ModelBreakdown)) : List (String × ClaudeMetrics) :=
  bs.foldl (fun acc ob =>
    match ob with
    | none => acc
    | some b => upsertWith (b.modelName.getD "unknown") zeroClaudeMetrics (addBreakdown b) acc) []

/-- One record appended to `daily_aggregates` (`collector.py`, lines
213-218); Python spreads the metric fields into the flat dictionary, which
is modelled as the nested `metrics` bundle. -/
structure ClaudeAggRecord where
  date : Option String
  model : String
  metrics : ClaudeMetrics
  deriving DecidableEq, Repr

/-- Return value of `aggregate_claude_data_for_api` (`collector.py`, lines
220-226); `collection_info` and `metadata` are passed through verbatim and
omitted here. -/
structure ClaudeApiPayload where
  daily_aggregates : List ClaudeAggRecord
  totals : List (String × ℚ)
  deriving DecidableEq, Repr

/-- `UsageCollector.aggregate_claude_data_for_api` (`collector.py`, lines
171-226): non-dict day entries are skipped; each dict day contributes one
record per distinct model name of its breakdowns, in insertion order. -/
def aggregate_claude_data_for_api (u : CcusageData) : ClaudeApiPayload :=
  { daily_aggregates :=
      u.daily.foldl (fun acc od =>
        match od with
        | none => acc
        | some day =>
          acc ++ (modelAggregatesForDay day.modelBreakdowns).map (fun p => ⟨day.date, p.1, p.2⟩)) []
    totals := u.totals }

/-- Day entries that contribute to `daily_aggregates` at all: dict entries
with a non-empty `modelBreakdowns` list (a missing list defaults to empty
and is modelled as `[]`). -/
def keepDay : Option CcusageDay → Bool
  | none => false
  | some day => !day.modelBreakdowns.isEmpty

/-- Unfolding of `lexLe` on two cons cells. -/
theorem lexLe_cons_iff (a b : Nat) (as bs : List Nat) :
    lexLe (a :: as) (b :: bs) = true ↔ (a < b ∨ (a = b ∧ lexLe as bs = true)) := by
  by_cases h1 : a < b
  · simp [lexLe, h1]
  · by_cases h2 : a = b
    · simp [lexLe, h1, h2]
    · simp [lexLe, h1, h2]

/-- Unfolding of `lexLt` on two cons cells. -/
theorem lexLt_cons_iff (a b : Nat) (as bs : List Nat) :
    lexLt (a :: as) (b :: bs) = true ↔ (a < b ∨ (a = b ∧ lexLt as bs = true)) := by
  by_cases h1 : a < b
  · simp [lexLt, h1]
  · by_cases h2 : a = b
    · simp [lexLt, h1, h2]
    · simp [lexLt, h1, h2]

/-- `lexLt` is the negation of the reversed `lexLe`. -/
theorem lexLt_eq_not_lexLe (as : List Nat) : ∀ bs, lexLt as bs = !lexLe bs as := by
  induction as with
  | nil => intro bs; cases bs <;> simp [lexLt, lexLe]
  | cons a as ih =>
    intro bs
    cases bs with
    | nil => simp [lexLt, lexLe]
    | cons b bs =>
      simp only [lexLt, lexLe]
      rcases lt_trichotomy a b with h | h | h
      · simp [h, lt_asymm h, ne_of_gt h]
      · subst h; simp [lt_irrefl, ih]
      · simp [lt_asymm h, ne_of_gt h, (ne_of_gt h).symm, h]

/-- Transitivity of the lexicographic order. -/
theorem lexLe_trans (as : List Nat) : ∀ bs cs, lexLe as bs = true → lexLe bs cs = true →
    lexLe as cs = true := by
  induction as with
  | nil => intro bs cs _ _; simp [lexLe]
  | cons a as ih =>
    intro bs cs h1 h2
    cases bs with
    | nil => simp [lexLe] at h1
    | cons b bs =>
      cases cs with
      | nil => simp [lexLe] at h2
      | cons c cs =>
        rw [lexLe_cons_iff] at h1 h2 ⊢
        rcases h1 with h1 | ⟨h1e, h1r⟩
        · rcases h2 with h2 | ⟨h2e, h2r⟩
          · exact Or.inl (lt_trans h1 h2)
          · exact Or.inl (h2e ▸ h1)
        · rcases h2 with h2 | ⟨h2e, h2r⟩
          · exact Or.inl (h1e ▸ h2)
          · exact Or.inr ⟨h1e.trans h2e, ih bs cs h1r h2r⟩

/-- Totality of the lexicographic order. -/
theorem lexLe_total (as : List Nat) : ∀ bs, lexLe as bs = true ∨ lexLe bs as = true := by
  induction as with
  | nil => intro bs; exact Or.inl (by simp [lexLe])
  | cons a as ih =>
    intro bs
    cases bs with
    | nil => exact Or.inr (by simp [lexLe])
    | cons b bs =>
      rcases lt_trichotomy a b with h | h | h
      · exact Or.inl ((lexLe_cons_iff ..).mpr (Or.inl h))
      · rcases ih bs with h2 | h2
        · exact Or.inl ((lexLe_cons_iff ..).mpr (Or.inr ⟨h, h2⟩))
        · exact Or.inr ((lexLe_cons_iff ..).mpr (Or.inr ⟨h.symm, h2⟩))
      · exact Or.inr ((lexLe_cons_iff ..).mpr (Or.inl h))

/-- A failed strict comparison yields the reversed non-strict one. -/
theorem lexLe_of_lexLt_eq_false {as bs : List Nat} (h : lexLt as bs = false) :
    lexLe bs as = true := by
  have h2 := lexLt_eq_not_lexLe as bs
  rw [h] at h2
  cases hx : lexLe bs as
  · rw [hx] at h2; simp at h2
  · rfl

/-- A strict comparison implies the non-strict one. -/
theorem lexLe_of_lexLt {as bs : List Nat} (h : lexLt as bs = true) :
    lexLe as bs = true := by
  have hn := lexLt_eq_not_lexLe as bs
  rw [h] at hn
  have hba : lexLe bs as = false := by
    cases hx : lexLe bs as
    · rfl
    · rw [hx] at hn; simp at hn
  rcases lexLe_total as bs with h2 | h2
  · exact h2
  · rw [h2] at hba; cases hba

/-- Lookup after an upsert: the touched key now stores the updated value
(update of the default when the key was absent); other keys are unchanged. -/
theorem lookupA_upsertWith {α : Type} (k k2 : String) (i : α) (f : α → α)
    (l : List (String × α)) :
    lookupA k (upsertWith k2 i f l) =
      if k2 = k then some (f ((lookupA k l).getD i)) else lookupA k l := by
  induction l with
  | nil => by_cases h : k2 = k <;> simp [upsertWith, lookupA, h]
  | cons p l ih =>
    obtain ⟨k1, v⟩ := p
    by_cases h1 : k1 = k2
    · subst h1
      by_cases h2 : k1 = k
      · subst h2; simp [upsertWith, lookupA]
      · simp [upsertWith, lookupA, h2]
    · by_cases h2 : k1 = k
      · subst h2
        simp [upsertWith, lookupA, h1, Ne.symm h1]
      · simp [upsertWith, lookupA, h1, h2, ih]

/-- `lookupA` misses exactly the keys outside the association list. -/
theorem lookupA_eq_none_iff {α : Type} (k : String) (l : List (String × α)) :
    lookupA k l = none ↔ k ∉ l.map Prod.fst := by
  induction l with
  | nil => simp [lookupA]
  | cons p l ih =>
    obtain ⟨k1, v⟩ := p
    by_cases h : k1 = k
    · subst h; simp [lookupA]
    · simp [lookupA, h, ih, Ne.symm h]

/-- An upsert either keeps the key list or appends the new key at the end. -/
theorem upsertWith_map_fst {α : Type} (k : String) (i : α) (f : α → α)
    (l : List (String × α)) :
    (upsertWith k i f l).map Prod.fst =
      if k ∈ l.map Prod.fst then l.map Prod.fst else l.map Prod.fst ++ [k] := by
  induction l with
  | nil => simp [upsertWith]
  | cons p l ih =>
    obtain ⟨k1, v⟩ := p
    by_cases h : k1 = k
    · subst h; simp [upsertWith]
    · by_cases h2 : k ∈ l.map Prod.fst
      · simp [upsertWith, h, ih, h2, Ne.symm h]
      · simp [upsertWith, h, ih, h2, Ne.symm h]

/-- Upserts preserve distinctness of the stored keys. -/
theorem upsertWith_nodup {α : Type} (k : String) (i : α) (f : α → α)
    (l : List (String × α)) (h : (l.map Prod.fst).Nodup) :
    ((upsertWith k i f l).map Prod.fst).Nodup := by
  rw [upsertWith_map_fst]
  by_cases h2 : k ∈ l.map Prod.fst
  · simpa [h2] using h
  · simp [h2, List.nodup_append, h]

/-- Folding dict-style upserts over a list keeps the keys distinct. -/
theorem foldl_upsert_nodup {ε α : Type} (key : ε → String) (di : ε → α) (upd : ε → α → α)
    (l : List ε) (acc : List (String × α)) (h : (acc.map Prod.fst).Nodup) :
    (((l.foldl (fun a e => upsertWith (key e) (di e) (upd e) a) acc)).map Prod.fst).Nodup := by
  induction l generalizing acc with
  | nil => simpa using h
  | cons e l ih => exact ih _ (upsertWith_nodup _ _ _ _ h)

/-- The central dictionary-aggregation lemma: after folding dict-style
upserts over `l`, the value stored at `k` is the fold of the updates of
exactly the elements keyed `k`, seeded by the accumulator's entry or, when
absent, by the first such element's initial record. -/
theorem lookupA_foldl_upsert {ε α : Type} (key : ε → String) (di : ε → α) (upd : ε → α → α)
    (l : List ε) (acc : List (String × α)) (k : String) :
    lookupA k (l.foldl (fun a e => upsertWith (key e) (di e) (upd e) a) acc) =
      match lookupA k acc with
      | some v => some ((l.filter (fun e => key e == k)).foldl (fun v e => upd e v) v)
      | none =>
        match l.filter (fun e => key e == k) with
        | [] => none
        | e :: es => some (es.foldl (fun v e => upd e v) (upd e (di e))) := by
  induction l generalizing acc with
  | nil => cases h : lookupA k acc <;> simp [h]
  | cons e l ih =>
    rw [List.foldl_cons, ih, lookupA_upsertWith]
    by_cases hk : key e = k
    · have hb : (key e == k) = true := beq_iff_eq.mpr hk
      cases h : lookupA k acc with
      | some v => simp [hk, h, List.filter_cons, hb]
      | none => simp [hk, h, List.filter_cons, hb]
    · have hb : (key e == k) = false := beq_eq_false_iff_ne.mpr hk
      cases h : lookupA k acc with
      | some v => simp [hk, h, List.filter_cons, hb]
      | none => simp [hk, h, List.filter_cons, hb]

/-- Folding the `+=` block of `aggregate_cursor_data_for_api` over a list
of events adds each metric's sum (and one request per event) to the
record. -/
theorem foldl_addEventToRecord (es : List UsageEvent) (r : CursorAggRecord) :
    es.foldl (fun v e => addEventToRecord e v) r =
      { r with
        input_with_cache := r.input_with_cache + (es.map (·.input_with_cache)).sum
        input_without_cache := r.input_without_cache + (es.map (·.input_without_cache)).sum
        cache_read := r.cache_read + (es.map (·.cache_read)).sum
        output := r.output + (es.map (·.output)).sum
        total_tokens := r.total_tokens + (es.map (·.total_tokens)).sum
        cost := r.cost + (es.map (·.cost)).sum
        requests := r.requests + es.length } := by
  induction es generalizing r with
  | nil => simp
  | cons e es ih =>
    rw [List.foldl_cons, ih]
    simp [addEventToRecord, add_assoc, Nat.add_comm 1]

/-- Closed form of the cursor aggregation: the record stored under a key
is built from exactly the events whose `aggKey` is that key — descriptive
fields from the first such event, metric fields their sums, `requests`
their count. -/
theorem cursor_agg_lookup (l : List UsageEvent) (k : String) :
    lookupA k (aggregate_cursor_data_for_api l) =
      match l.filter (fun e => aggKey e == k) with
      | [] => none
      | e :: es =>
        some ⟨dateKeyOfStr e.date, e.model, e.kind,
          ((e :: es).map (·.input_with_cache)).sum,
          ((e :: es).map (·.input_without_cache)).sum,
          ((e :: es).map (·.cache_read)).sum,
          ((e :: es).map (·.output)).sum,
          ((e :: es).map (·.total_tokens)).sum,
          ((e :: es).map (·.cost)).sum,
          (e :: es).length,
          e.included_in_subscription⟩ := by
  unfold aggregate_cursor_data_for_api
  rw [lookupA_foldl_upsert]
  cases hf : l.filter (fun e => aggKey e == k) with
  | nil => simp [lookupA]
  | cons e es =>
    simp only [lookupA]
    rw [foldl_addEventToRecord]
    simp [addEventToRecord, newCursorRecord, add_assoc, Nat.add_comm 1]

/-- Lookup after merging one keyed record by field-wise metric addition. -/
theorem lookupA_mergeInto (acc : List (String × CursorAggRecord)) (k k2 : String)
    (r : CursorAggRecord) :
    lookupA k (mergeInto acc k2 r) =
      if k2 = k then
        some (match lookupA k acc with
          | some v => addRecordMetrics v r
          | none => r)
      else lookupA k acc := by
  induction acc with
  | nil => by_cases h : k2 = k <;> simp [mergeInto, lookupA, h]
  | cons p acc ih =>
    obtain ⟨k1, v⟩ := p
    by_cases h1 : k1 = k2
    · subst h1
      by_cases h2 : k1 = k
      · subst h2; simp [mergeInto, lookupA]
      · simp [mergeInto, lookupA, h2]
    · by_cases h2 : k1 = k
      · subst h2; simp [mergeInto, lookupA, h1, Ne.symm h1]
      · simp [mergeInto, lookupA, h1, h2, ih]

/-- Lookup after merging a whole keyed aggregation (with distinct keys)
into another by field-wise metric addition. -/
theorem lookupA_mergeAgg (b : List (String × CursorAggRecord)) :
    ∀ (a : List (String × CursorAggRecord)) (k : String), (b.map Prod.fst).Nodup →
      lookupA k (mergeAgg a b) =
        match lookupA k b with
        | none => lookupA k a
        | some rb =>
          some (match lookupA k a with
            | some ra => addRecordMetrics ra rb
            | none => rb) := by
  induction b with
  | nil => intro a k _; simp [mergeAgg, lookupA]
  | cons p b ih =>
    intro a k hb
    obtain ⟨k1, r1⟩ := p
    have hb2 : (k1 :: b.map Prod.fst).Nodup := by simpa using hb
    have hb1 : (b.map Prod.fst).Nodup := (List.nodup_cons.mp hb2).2
    have hk1 : k1 ∉ b.map Prod.fst := (List.nodup_cons.mp hb2).1
    have hstep : mergeAgg a ((k1, r1) :: b) =
        b.foldl (fun acc kv => mergeInto acc kv.1 kv.2) (mergeInto a k1 r1) := rfl
    rw [hstep]
    have := ih (mergeInto a k1 r1) k hb1
    rw [show b.foldl (fun acc kv => mergeInto acc kv.1 kv.2) (mergeInto a k1 r1) =
        mergeAgg (mergeInto a k1 r1) b from rfl, this]
    by_cases hk : k1 = k
    · subst hk
      have hnone : lookupA k1 b = none := (lookupA_eq_none_iff _ _).mpr hk1
      rw [hnone, lookupA_mergeInto]
      simp [lookupA]
    · rw [lookupA_mergeInto]
      simp [lookupA, hk]

/-- Batch splitting: aggregating two batches separately and merging by key
with field-wise metric addition stores, under every key, exactly the
record obtained by aggregating the concatenated list. -/
theorem cursor_agg_merge_split (l1 l2 : List UsageEvent) (k : String) :
    lookupA k (mergeAgg (aggregate_cursor_data_for_api l1) (aggregate_cursor_data_for_api l2)) =
      lookupA k (aggregate_cursor_data_for_api (l1 ++ l2)) := by
  have hnd : ((aggregate_cursor_data_for_api l2).map Prod.fst).Nodup := by
    unfold aggregate_cursor_data_for_api
    exact foldl_upsert_nodup _ _ _ _ _ (by simp)
  rw [lookupA_mergeAgg _ _ _ hnd, cursor_agg_lookup, cursor_agg_lookup, cursor_agg_lookup,
    List.filter_append]
  cases hf1 : l1.filter (fun e => aggKey e == k) with
  | nil =>
    cases hf2 : l2.filter (fun e => aggKey e == k) with
    | nil => simp
    | cons e es => simp
  | cons e es =>
    cases hf2 : l2.filter (fun e => aggKey e == k) with
    | nil => simp
    | cons e2 es2 =>
      simp only [Option.some.injEq, List.cons_append]
      simp [addRecordMetrics, add_assoc]
      omega

/-- Order independence of the per-key metric sums: permuting the event
list leaves every key's additive metrics (and request count) unchanged. -/
theorem cursor_agg_metrics_perm {l l2 : List UsageEvent} (hp : l.Perm l2) (k : String) :
    (lookupA k (aggregate_cursor_data_for_api l)).map CursorAggRecord.metrics =
      (lookupA k (aggregate_cursor_data_for_api l2)).map CursorAggRecord.metrics := by
  rw [cursor_agg_lookup, cursor_agg_lookup]
  have hperm := hp.filter (fun e => aggKey e == k)
  cases hf : l.filter (fun e => aggKey e == k) with
  | nil =>
    rw [hf] at hperm
    rw [hperm.symm.eq_nil]
  | cons e es =>
    cases hf2 : l2.filter (fun e => aggKey e == k) with
    | nil => rw [hf, hf2] at hperm; exact absurd hperm.eq_nil (by simp)
    | cons e2 es2 =>
      rw [hf, hf2] at hperm
      simp only [Option.map_some]
      simp [CursorAggRecord.metrics]
      exact ⟨(hperm.map _).sum_eq, (hperm.map _).sum_eq, (hperm.map _).sum_eq,
        (hperm.map _).sum_eq, (hperm.map _).sum_eq, (hperm.map _).sum_eq,
        by simpa using hperm.length_eq⟩

/-- Folding the per-model `+=` block of `calculate_billing_period_usage`
over a list of events adds their counts and sums to the accumulator. -/
theorem foldl_addEventStats (es : List UsageEvent) (m : ModelStats) :
    es.foldl (fun v e => addEventStats e v) m =
      ⟨m.requests + es.length, m.tokens + (es.map (·.total_tokens)).sum,
        m.cost + (es.map (·.cost)).sum⟩ := by
  induction es generalizing m with
  | nil => simp
  | cons e es ih =>
    rw [List.foldl_cons, ih]
    simp [addEventStats, add_assoc, Nat.add_comm 1]

/-- Closed form of the event loop of `calculate_billing_period_usage`:
only the events inside the period contribute, additively. -/
theorem billing_foldl (period_start period_end : PyDateTime) (events : List UsageEvent)
    (s : BillingSummary) :
    events.foldl (billingStep period_start period_end) s =
      { total_requests :=
          s.total_requests + (events.filter (eventInPeriod period_start period_end)).length
        total_tokens := s.total_tokens +
          ((events.filter (eventInPeriod period_start period_end)).map (·.total_tokens)).sum
        total_cost := s.total_cost +
          ((events.filter (eventInPeriod period_start period_end)).map (·.cost)).sum
        model_usage :=
          (events.filter (eventInPeriod period_start period_end)).foldl
            (fun acc e => upsertWith e.model ⟨0, 0, 0⟩ (addEventStats e) acc) s.model_usage
        events_count :=
          s.events_count + (events.filter (eventInPeriod period_start period_end)).length } := by
  induction events generalizing s with
  | nil => simp
  | cons e events ih =>
    rw [List.foldl_cons]
    cases h : eventInPeriod period_start period_end e with
    | false => rw [show billingStep period_start period_end s e = s by simp [billingStep, h]]
               rw [ih]
               simp [List.filter_cons, h]
    | true =>
      rw [ih]
      simp [billingStep, h, List.filter_cons, add_assoc, Nat.add_comm 1]

/-- Per-model breakdown of `calculate_billing_period_usage`: the stats
stored for a model are the count and sums of exactly the in-period events
of that model. -/
theorem billing_model_usage_lookup (events : List UsageEvent)
    (period_start period_end : PyDateTime) (m : String) :
    lookupA m (calculate_billing_period_usage events period_start period_end).model_usage =
      match (events.filter (eventInPeriod period_start period_end)).filter
          (fun e => e.model == m) with
      | [] => none
      | e :: es =>
        some ⟨(e :: es).length, ((e :: es).map (·.total_tokens)).sum,
          ((e :: es).map (·.cost)).sum⟩ := by
  unfold calculate_billing_period_usage
  rw [billing_foldl]
  have := lookupA_foldl_upsert (fun e : UsageEvent => e.model)
    (fun _ => (⟨0, 0, 0⟩ : ModelStats)) (fun e v => addEventStats e v)
    (events.filter (eventInPeriod period_start period_end)) [] m
  simp only [lookupA] at this
  rw [this]
  cases hf : (events.filter (eventInPeriod period_start period_end)).filter
      (fun e => e.model == m) with
  | nil => rfl
  | cons e es =>
    dsimp only
    rw [foldl_addEventStats]
    simp [addEventStats, add_assoc, Nat.add_comm 1]

/-- Folding the `+=` block of `aggregate_claude_data_for_api` over a list
of breakdowns adds each metric's (defaulted) sum to the accumulator. -/
theorem foldl_addBreakdown (bs : List ModelBreakdown) (m : ClaudeMetrics) :
    bs.foldl (fun v b => addBreakdown b v) m =
      ⟨m.input_tokens + (bs.map (fun b => b.inputTokens.getD 0)).sum,
       m.output_tokens + (bs.map (fun b => b.outputTokens.getD 0)).sum,
       m.cache_creation_tokens + (bs.map (fun b => b.cacheCreationTokens.getD 0)).sum,
       m.cache_read_tokens + (bs.map (fun b => b.cacheReadTokens.getD 0)).sum,
       m.total_tokens + (bs.map (fun b => b.totalTokens.getD 0)).sum,
       m.cost + (bs.map (fun b => b.cost.getD 0)).sum⟩ := by
  induction bs generalizing m with
  | nil => simp
  | cons b bs ih =>
    rw [List.foldl_cons, ih]
    simp [addBreakdown, add_assoc]

/-- Skipping the non-dict entries first does not change the per-day
grouping fold. -/
theorem modelAggregatesForDay_eq_filterMap (bs : List (Option ModelBreakdown)) :
    modelAggregatesForDay bs =
      (bs.filterMap id).foldl
        (fun acc b =>
          upsertWith (b.modelName.getD "unknown") zeroClaudeMetrics (addBreakdown b) acc) [] := by
  unfold modelAggregatesForDay
  generalize ([] : List (String × ClaudeMetrics)) = acc
  induction bs generalizing acc with
  | nil => simp
  | cons ob bs ih => cases ob <;> simp [ih]

/-- Closed form of the per-day model grouping of
`aggregate_claude_data_for_api`: the metrics stored under a model name are
the sums over exactly the dict breakdowns carrying that (defaulted) name. -/
theorem claude_day_lookup (bs : List (Option ModelBreakdown)) (m : String) :
    lookupA m (modelAggregatesForDay bs) =
      match (bs.filterMap id).filter (fun b => b.modelName.getD "unknown" == m) with
      | [] => none
      | b :: rest =>
        some ⟨((b :: rest).map (fun x => x.inputTokens.getD 0)).sum,
          ((b :: rest).map (fun x => x.outputTokens.getD 0)).sum,
          ((b :: rest).map (fun x => x.cacheCreationTokens.getD 0)).sum,
          ((b :: rest).map (fun x => x.cacheReadTokens.getD 0)).sum,
          ((b :: rest).map (fun x => x.totalTokens.getD 0)).sum,
          ((b :: rest).map (fun x => x.cost.getD 0)).sum⟩ := by
  rw [modelAggregatesForDay_eq_filterMap]
  have := lookupA_foldl_upsert (fun b : ModelBreakdown => b.modelName.getD "unknown")
    (fun _ => zeroClaudeMetrics) (fun b v => addBreakdown b v) (bs.filterMap id) [] m
  simp only [lookupA] at this
  rw [this]
  cases hf : (bs.filterMap id).filter (fun b => b.modelName.getD "unknown" == m) with
  | nil => rfl
  | cons b rest =>
    dsimp only
    rw [foldl_addBreakdown]
    simp [addBreakdown, zeroClaudeMetrics, add_assoc]

/-- Appending day contributions by a left fold is concatenation. -/
theorem claude_fold_append (l : List (Option CcusageDay)) (acc : List ClaudeAggRecord) :
    l.foldl (fun acc od =>
        match od with
        | none => acc
        | some day =>
          acc ++ (modelAggregatesForDay day.modelBreakdowns).map
            (fun p => ⟨day.date, p.1, p.2⟩)) acc =
      acc ++ l.flatMap (fun od =>
        match od with
        | none => []
        | some day =>
          (modelAggregatesForDay day.modelBreakdowns).map
            (fun p => ⟨day.date, p.1, p.2⟩)) := by
  induction l generalizing acc with
  | nil => simp
  | cons od l ih => cases od <;> simp [ih]

/-- The `daily_aggregates` list is the concatenation, in day order, of
each dict day's grouped records. -/
theorem claude_daily_eq_flatMap (u : CcusageData) :
    (aggregate_claude_data_for_api u).daily_aggregates =
      u.daily.flatMap (fun od =>
        match od with
        | none => []
        | some day =>
          (modelAggregatesForDay day.modelBreakdowns).map
            (fun p => ⟨day.date, p.1, p.2⟩)) := by
  show (u.daily.foldl _ []) = _
  rw [claude_fold_append]
  simp

/-- Every month has at least 28 days. -/
theorem daysInMonth_ge (y m : Nat) : 28 ≤ daysInMonth y m := by
  unfold daysInMonth
  split_ifs <;> omega

/-- Advancing a valid datetime whose day is at most 28 by one month always
succeeds, keeps the sub-month fields, raises the month counter by one and
strictly increases the datetime. -/
theorem monthSucc_some (d : DT) (hm1 : 1 ≤ d.month) (hm2 : d.month ≤ 12)
    (hd1 : 1 ≤ d.day) (hd2 : d.day ≤ 28) :
    ∃ pe, monthSucc d = some pe ∧ pe.day = d.day ∧ 1 ≤ pe.month ∧ pe.month ≤ 12 ∧
      monthIndex pe = monthIndex d + 1 ∧ dtLt d pe = true := by
  by_cases h12 : d.month = 12
  · refine ⟨{ d with year := d.year + 1, month := 1 }, ?_, rfl, by simp, by simp, ?_, ?_⟩
    · unfold monthSucc
      rw [if_pos h12]
      rw [if_pos ?_]
      exact ⟨le_refl 1, by norm_num, hd1, le_trans hd2 (daysInMonth_ge _ _)⟩
    · unfold monthIndex; simp; omega
    · unfold dtLt DT.toList
      simp [lexLt]
  · refine ⟨{ d with month := d.month + 1 }, ?_, rfl, by simp, by simp; omega, ?_, ?_⟩
    · unfold monthSucc
      rw [if_neg h12]
      rw [if_pos ?_]
      exact ⟨by omega, by omega, hd1, le_trans hd2 (daysInMonth_ge _ _)⟩
    · unfold monthIndex; simp; omega
    · unfold dtLt DT.toList
      rw [lexLt_cons_iff]
      right
      refine ⟨rfl, ?_⟩
      rw [lexLt_cons_iff]
      left
      simp

/-- The month counter is monotone along the datetime order (for valid
month fields). -/
theorem monthIndex_le_of_dtLe {a b : DT} (ha : a.month ≤ 12) (hb : 1 ≤ b.month)
    (h : dtLe a b = true) : monthIndex a ≤ monthIndex b := by
  unfold dtLe DT.toList at h
  rw [lexLe_cons_iff] at h
  unfold monthIndex
  rcases h with h | ⟨he, h2⟩
  · omega
  · rw [lexLe_cons_iff] at h2
    rcases h2 with h2 | ⟨he2, _⟩ <;> omega

/-- With enough fuel, the loop of `get_current_billing_period` returns a
valid pair for any anchor not after `now` whose day is at most 28. -/
theorem billing_loop_ok (now : DT) (hn1 : 1 ≤ now.month) (hn2 : now.month ≤ 12) :
    ∀ (k : Nat) (ps : DT), 1 ≤ ps.month → ps.month ≤ 12 → 1 ≤ ps.day → ps.day ≤ 28 →
      dtLe ps now = true → monthIndex now + 1 - monthIndex ps ≤ k →
      billingOk now (get_current_billing_period k ps now) := by
  intro k
  induction k with
  | zero =>
    intro ps hm1 hm2 _ _ hle hmeas
    exact absurd hmeas (by have := monthIndex_le_of_dtLe hm2 hn1 hle; omega)
  | succ k ih =>
    intro ps hm1 hm2 hd1 hd2 hle hmeas
    obtain ⟨pe, hpe, hday, hpm1, hpm2, hmi, hlt⟩ := monthSucc_some ps hm1 hm2 hd1 hd2
    rw [show get_current_billing_period (k + 1) ps now =
        (match monthSucc ps with
          | none => some .valueError
          | some period_end =>
            if dtLe ps now && dtLt now period_end then some (.ok ps period_end)
            else get_current_billing_period k period_end now) from rfl, hpe]
    dsimp only
    by_cases hcond : (dtLe ps now && dtLt now pe) = true
    · rw [if_pos hcond]
      simp only [billingOk]
      exact ⟨hpe, hle, (Bool.and_eq_true ..).mp hcond |>.2⟩
    · rw [if_neg hcond]
      have hnotlt : dtLt now pe = false := by
        cases hx : dtLt now pe
        · rfl
        · exact absurd (by rw [Bool.and_eq_true]; exact ⟨hle, hx⟩) hcond
      have hpele : dtLe pe now = true := lexLe_of_lexLt_eq_false hnotlt
      have hmile : monthIndex pe ≤ monthIndex now := monthIndex_le_of_dtLe hpm2 hn1 hpele
      exact ih pe hpm1 hpm2 (by omega) (by omega) hpele (by omega)

/-- When `now` precedes the anchor the loop of `get_current_billing_period`
never returns, whatever the fuel: every period it visits starts after
`now`. -/
theorem billing_loop_none (now : DT) :
    ∀ (fuel : Nat) (ps : DT), 1 ≤ ps.month → ps.month ≤ 12 → 1 ≤ ps.day → ps.day ≤ 28 →
      dtLe ps now = false → get_current_billing_period fuel ps now = none := by
  intro fuel
  induction fuel with
  | zero => intro ps _ _ _ _ _; rfl
  | succ fuel ih =>
    intro ps hm1 hm2 hd1 hd2 hle
    obtain ⟨pe, hpe, hday, hpm1, hpm2, hmi, hlt⟩ := monthSucc_some ps hm1 hm2 hd1 hd2
    rw [show get_current_billing_period (fuel + 1) ps now =
        (match monthSucc ps with
          | none => some .valueError
          | some period_end =>
            if dtLe ps now && dtLt now period_end then some (.ok ps period_end)
            else get_current_billing_period fuel period_end now) from rfl, hpe]
    dsimp only
    rw [if_neg (by rw [hle]; simp)]
    apply ih pe hpm1 hpm2 (by omega) (by omega)
    cases hx : dtLe pe now
    · rfl
    · exfalso
      have h1 : lexLe ps.toList pe.toList = true := lexLe_of_lexLt hlt
      have h2 : lexLe ps.toList now.toList = true := lexLe_trans _ _ _ h1 hx
      unfold dtLe at hle
      rw [hle] at h2
      cases h2

/-- A row becomes an event exactly when every field extraction succeeds,
and the event's fields are the extracted values; the cost field follows
the sentinel rule of `cursor_collector.py`, lines 419-426. -/
theorem parseRow_eq_some_iff (r : CsvRow) (e : UsageEvent) :
    parseRow r = some e ↔
      ∃ costStr,
        getStrField r "Date" = some e.date ∧
        getStrField r "User" = some e.user ∧
        getStrField r "Kind" = some e.kind ∧
        getStrField r "Model" = some e.model ∧
        getIntField r "Input (w/ Cache Write)" = some e.input_with_cache ∧
        getIntField r "Input (w/o Cache Write)" = some e.input_without_cache ∧
        getIntField r "Cache Read" = some e.cache_read ∧
        getIntField r "Output" = some e.output ∧
        getIntField r "Total Tokens" = some e.total_tokens ∧
        getStrField r "Cost ($)" = some costStr ∧
        e.included_in_subscription = isSentinelCost costStr ∧
        e.cost = (if isSentinelCost costStr then 0
          else (pyFloatOfStr (removeDollar costStr)).getD 0) := by
  simp only [parseRow, Option.bind_eq_bind, Option.bind_eq_some, Option.some.injEq]
  constructor
  · rintro ⟨d, hd, u, hu, kk, hk, m, hm, a1, ha1, a2, ha2, a3, ha3, a4, ha4, a5, ha5, c, hc, hee⟩
    refine ⟨c, ?_⟩
    rw [← hee]
    exact ⟨hd, hu, hk, hm, ha1, ha2, ha3, ha4, ha5, hc, rfl, rfl⟩
  · rintro ⟨c, hd, hu, hk, hm, ha1, ha2, ha3, ha4, ha5, hc, hincl, hcost⟩
    refine ⟨_, hd, _, hu, _, hk, _, hm, _, ha1, _, ha2, _, ha3, _, ha4, _, ha5, _, hc, ?_⟩
    cases e
    simp only at hincl hcost ⊢
    rw [hincl, hcost]

/-- Closed form of the row loop of `parse_csv_data`: the events are the
successfully parsed rows in order, and the running totals are their sums. -/
theorem parse_foldl (rows : List CsvRow) (acc : List UsageEvent × Int × ℚ) :
    rows.foldl parseStep acc =
      (acc.1 ++ rows.filterMap parseRow,
       acc.2.1 + ((rows.filterMap parseRow).map (·.total_tokens)).sum,
       acc.2.2 + ((rows.filterMap parseRow).map (·.cost)).sum) := by
  induction rows generalizing acc with
  | nil => simp
  | cons r rows ih =>
    rw [List.foldl_cons]
    cases h : parseRow r with
    | none =>
      rw [show parseStep acc r = acc by simp [parseStep, h]]
      rw [ih]
      simp [List.filterMap_cons, h]
    | some e =>
      rw [show parseStep acc r = (acc.1 ++ [e], acc.2.1 + e.total_tokens, acc.2.2 + e.cost) from
        by simp [parseStep, h]]
      rw [ih]
      simp [List.filterMap_cons, h, add_assoc]

/-- The event list produced by `parse_csv_data` is the ordered list of
successfully parsed rows. -/
theorem parse_events_eq (rows : List CsvRow) :
    (parse_csv_data rows).usage_events = rows.filterMap parseRow := by
  unfold parse_csv_data
  rw [parse_foldl]
  simp

/-- **C1.** For every CSV export (as `DictReader` rows), `parse_csv_data`
returns at most one event per data row, every returned event whose
(stripped) raw `Cost ($)` field is `""`, `"0"` or `"Included"` has cost 0
and `included_in_subscription = true`, and any other raw cost is parsed as
a float after stripping `$`, defaulting to 0.0 on parse failure, with
`included_in_subscription = false`. -/
theorem c1_parse_export_cost_sentinels (rows : List CsvRow) (r : CsvRow) (e : UsageEvent)
    (cs : String) (hr : r ∈ rows) (he : parseRow r = some e)
    (hcs : getStrField r "Cost ($)" = some cs) :
    (parse_csv_data rows).usage_events.length ≤ rows.length
    ∧ e ∈ (parse_csv_data rows).usage_events
    ∧ ((cs = "" ∨ cs = "0" ∨ cs = "Included") →
        e.cost = 0 ∧ e.included_in_subscription = true)
    ∧ (¬(cs = "" ∨ cs = "0" ∨ cs = "Included") →
        e.cost = (pyFloatOfStr (removeDollar cs)).getD 0
          ∧ e.included_in_subscription = false) := by
  obtain ⟨c, hd, hu, hk, hm, h1, h2, h3, h4, h5, hc, hincl, hcost⟩ :=
    (parseRow_eq_some_iff r e).mp he
  have hceq : c = cs := by rw [hc] at hcs; exact Option.some.inj hcs
  rw [hceq] at hincl hcost
  have hsent : isSentinelCost cs = true ↔ (cs = "" ∨ cs = "0" ∨ cs = "Included") := by
    simp [isSentinelCost]
    tauto
  refine ⟨?_, ?_, ?_, ?_⟩
  · rw [parse_events_eq]; exact List.length_filterMap_le _ _
  · rw [parse_events_eq]; exact List.mem_filterMap.mpr ⟨r, hr, he⟩
  · intro hs
    have hb : isSentinelCost cs = true := hsent.mpr hs
    exact ⟨by rw [hcost, hb]; simp, by rw [hincl, hb]⟩
  · intro hs
    have hb : isSentinelCost cs = false := by
      cases hx : isSentinelCost cs
      · rfl
      · exact absurd (hsent.mp hx) hs
    exact ⟨by rw [hcost, hb]; simp, by rw [hincl, hb]⟩

/-- Witness for C1 at the specification's scenario row: cost `"$0.02"` is
not a sentinel, so the event's cost is the parsed `0.02` and it is not
included in the subscription. -/
theorem c1_witness :
    (⟨"2024-01-01T00:00:00Z", "u", "compose", "gpt-4", 10, 0, 0, 5, 15,
        (pyFloatOfStr (removeDollar "$0.02")).getD 0, false⟩
        : UsageEvent).cost = (pyFloatOfStr (removeDollar "$0.02")).getD 0
      ∧ (⟨"2024-01-01T00:00:00Z", "u", "compose", "gpt-4", 10, 0, 0, 5, 15,
        (pyFloatOfStr (removeDollar "$0.02")).getD 0, false⟩
        : UsageEvent).included_in_subscription = false :=
  (c1_parse_export_cost_sentinels
    [[("Date", some "2024-01-01T00:00:00Z"), ("User", some "u"), ("Kind", some "compose"),
      ("Model", some "gpt-4"), ("Input (w/ Cache Write)", some "10"),
      ("Input (w/o Cache Write)", some "0"), ("Cache Read", some "0"),
      ("Output", some "5"), ("Total Tokens", some "15"), ("Cost ($)", some "$0.02")]]
    [("Date", some "2024-01-01T00:00:00Z"), ("User", some "u"), ("Kind", some "compose"),
      ("Model", some "gpt-4"), ("Input (w/ Cache Write)", some "10"),
      ("Input (w/o Cache Write)", some "0"), ("Cache Read", some "0"),
      ("Output", some "5"), ("Total Tokens", some "15"), ("Cost ($)", some "$0.02")]
    ⟨"2024-01-01T00:00:00Z", "u", "compose", "gpt-4", 10, 0, 0, 5, 15,
      (pyFloatOfStr (removeDollar "$0.02")).getD 0, false⟩
    "$0.02" (List.mem_singleton.mpr rfl) rfl rfl).2.2.2 (by decide)

/-- **C5 (amended).** A row whose numeric columns are absent from the row
mapping still yields an event with those fields zero; but a row whose
`Total Tokens` value is present and unparseable as an integer is skipped
(the source catches the `ValueError` and `continue`s), not kept with a
zero field. -/
theorem c5_numeric_defaults (r r2 : CsvRow) (e : UsageEvent) (s : String)
    (h1 : lookupA "Input (w/ Cache Write)" r = none)
    (h2 : lookupA "Input (w/o Cache Write)" r = none)
    (h3 : lookupA "Cache Read" r = none)
    (h4 : lookupA "Output" r = none)
    (h5 : lookupA "Total Tokens" r = none)
    (he : parseRow r = some e)
    (h6 : lookupA "Total Tokens" r2 = some (some s))
    (h7 : pyIntOfStr s = none) :
    e.input_with_cache = 0 ∧ e.input_without_cache = 0 ∧ e.cache_read = 0
      ∧ e.output = 0 ∧ e.total_tokens = 0 ∧ parseRow r2 = none := by
  obtain ⟨c, hd, hu, hk, hm, ha1, ha2, ha3, ha4, ha5, hc, hincl, hcost⟩ :=
    (parseRow_eq_some_iff r e).mp he
  have g1 : getIntField r "Input (w/ Cache Write)" = some 0 := by simp [getIntField, h1]
  have g2 : getIntField r "Input (w/o Cache Write)" = some 0 := by simp [getIntField, h2]
  have g3 : getIntField r "Cache Read" = some 0 := by simp [getIntField, h3]
  have g4 : getIntField r "Output" = some 0 := by simp [getIntField, h4]
  have g5 : getIntField r "Total Tokens" = some 0 := by simp [getIntField, h5]
  rw [g1] at ha1; rw [g2] at ha2; rw [g3] at ha3; rw [g4] at ha4; rw [g5] at ha5
  refine ⟨(Option.some.inj ha1).symm, (Option.some.inj ha2).symm, (Option.some.inj ha3).symm,
    (Option.some.inj ha4).symm, (Option.some.inj ha5).symm, ?_⟩
  cases hp : parseRow r2 with
  | none => rfl
  | some e2 =>
    exfalso
    obtain ⟨c2, _, _, _, _, _, _, _, _, hb5, _, _, _⟩ := (parseRow_eq_some_iff r2 e2).mp hp
    have hgone : getIntField r2 "Total Tokens" = none := by simp [getIntField, h6, h7]
    rw [hgone] at hb5
    cases hb5

/-- Witness for C5: a row lacking all numeric columns parses to an event
with zero metrics, while a row whose `Total Tokens` is `"abc"` is
dropped. -/
theorem c5_witness :
    (⟨"d", "u", "k", "m", 0, 0, 0, 0, 0, 0, true⟩ : UsageEvent).input_with_cache = 0
    ∧ (⟨"d", "u", "k", "m", 0, 0, 0, 0, 0, 0, true⟩ : UsageEvent).input_without_cache = 0
    ∧ (⟨"d", "u", "k", "m", 0, 0, 0, 0, 0, 0, true⟩ : UsageEvent).cache_read = 0
    ∧ (⟨"d", "u", "k", "m", 0, 0, 0, 0, 0, 0, true⟩ : UsageEvent).output = 0
    ∧ (⟨"d", "u", "k", "m", 0, 0, 0, 0, 0, 0, true⟩ : UsageEvent).total_tokens = 0
    ∧ parseRow [("Date", some "d"), ("User", some "u"), ("Kind", some "k"),
        ("Model", some "m"), ("Total Tokens", some "abc"), ("Cost ($)", some "1")] = none :=
  c5_numeric_defaults
    [("Date", some "d"), ("User", some "u"), ("Kind", some "k"), ("Model", some "m"),
      ("Cost ($)", some "")]
    [("Date", some "d"), ("User", some "u"), ("Kind", some "k"), ("Model", some "m"),
      ("Total Tokens", some "abc"), ("Cost ($)", some "1")]
    ⟨"d", "u", "k", "m", 0, 0, 0, 0, 0, 0, true⟩ "abc"
    (by decide) (by decide) (by decide) (by decide) (by decide) (by decide)
    (by decide) (by decide)

/-- C5 counterexample: the claim says a row with an unparseable numeric
field is kept with the field defaulted to zero, but `parse_csv_data` drops
it — this complete row with `Total Tokens = "abc"` produces no event. -/
theorem c5_counterexample :
    (parse_csv_data [[("Date", some "2024-01-01"), ("User", some "u"), ("Kind", some "k"),
      ("Model", some "m"), ("Input (w/ Cache Write)", some "1"),
      ("Input (w/o Cache Write)", some "2"), ("Cache Read", some "3"),
      ("Output", some "4"), ("Total Tokens", some "abc"),
      ("Cost ($)", some "")]]).usage_events.length = 0 := by decide

/-- **C7.** `should_fetch_usage` returns true iff strictly more than
`min_interval_seconds` have elapsed; in particular with `last = 0` it is
true for every `now > 300`, and with `last = now - 100` it is false. -/
theorem c7_should_fetch (now last_fetch_time min_interval T T2 : ℚ) (hT : T > 300) :
    (should_fetch_usage now last_fetch_time min_interval = true ↔
      now - last_fetch_time > min_interval)
    ∧ should_fetch_usage T 0 300 = true
    ∧ should_fetch_usage T2 (T2 - 100) 300 = false := by
  refine ⟨by simp [should_fetch_usage], ?_, ?_⟩
  · simp [should_fetch_usage]
    linarith
  · simp [should_fetch_usage]
    linarith

/-- Witness for C7 at `T = 301`, `T2 = 500`. -/
theorem c7_witness :
    (should_fetch_usage 400 50 300 = true ↔ (400 : ℚ) - 50 > 300)
    ∧ should_fetch_usage 301 0 300 = true
    ∧ should_fetch_usage 500 (500 - 100) 300 = false :=
  c7_should_fetch 400 50 300 301 500 (by norm_num)

/-- **C9.** The summary of `parse_csv_data` is consistent with its event
list: `total_events` is the list's length, `total_tokens` and `total_cost`
are the events' sums, `models_used` is exactly the set of distinct models,
and the date range is the first and last event's date in input order. -/
theorem c9_summary_consistency (rows : List CsvRow) :
    (parse_csv_data rows).summary.total_events = (parse_csv_data rows).usage_events.length
    ∧ (parse_csv_data rows).summary.total_tokens =
        ((parse_csv_data rows).usage_events.map (·.total_tokens)).sum
    ∧ (parse_csv_data rows).summary.total_cost =
        ((parse_csv_data rows).usage_events.map (·.cost)).sum
    ∧ (∀ m, m ∈ (parse_csv_data rows).summary.models_used ↔
        m ∈ (parse_csv_data rows).usage_events.map (·.model))
    ∧ (parse_csv_data rows).summary.models_used.Nodup
    ∧ (parse_csv_data rows).summary.date_range_start =
        ((parse_csv_data rows).usage_events.head?).map (·.date)
    ∧ (parse_csv_data rows).summary.date_range_end =
        ((parse_csv_data rows).usage_events.getLast?).map (·.date) := by
  unfold parse_csv_data
  rw [parse_foldl]
  simp [List.mem_dedup, List.nodup_dedup]

/-- **C2 (amended).** `aggregate_cursor_data_for_api` merges two events
into the same record iff their underscore-joined key strings
`{date_key}_{model}_{kind}_{included}` coincide: the record stored under a
key is built from exactly the events with that `aggKey` — descriptive
fields from the first, metric sums and the event count for the rest.
Agreement on all four key components implies a shared key, but the
converse fails when `model` or `kind` contains an underscore. -/
theorem c2_cursor_key_grouping (l : List UsageEvent) (k : String) (e1 e2 : UsageEvent)
    (hsame : dateKeyOfStr e1.date = dateKeyOfStr e2.date ∧ e1.model = e2.model ∧
      e1.kind = e2.kind ∧ e1.included_in_subscription = e2.included_in_subscription) :
    aggKey e1 = aggKey e2
    ∧ lookupA k (aggregate_cursor_data_for_api l) =
      (match l.filter (fun e => aggKey e == k) with
      | [] => none
      | e :: es =>
        some ⟨dateKeyOfStr e.date, e.model, e.kind,
          ((e :: es).map (·.input_with_cache)).sum,
          ((e :: es).map (·.input_without_cache)).sum,
          ((e :: es).map (·.cache_read)).sum,
          ((e :: es).map (·.output)).sum,
          ((e :: es).map (·.total_tokens)).sum,
          ((e :: es).map (·.cost)).sum,
          (e :: es).length,
          e.included_in_subscription⟩) := by
  obtain ⟨hdk, hmo, hki, hin⟩ := hsame
  exact ⟨by rw [aggKey, aggKey, hdk, hmo, hki, hin], cursor_agg_lookup l k⟩

/-- Witness for C2 at two events agreeing on all four key components. -/
theorem c2_witness :
    aggKey ⟨"2024-01-01", "u", "chat", "gpt-4", 1, 0, 0, 0, 1, 0, false⟩ =
      aggKey ⟨"2024-01-01", "v", "chat", "gpt-4", 2, 0, 0, 0, 2, 0, false⟩
    ∧ lookupA "nokey" (aggregate_cursor_data_for_api []) =
      (match ([] : List UsageEvent).filter (fun e => aggKey e == "nokey") with
      | [] => none
      | e :: es =>
        some ⟨dateKeyOfStr e.date, e.model, e.kind,
          ((e :: es).map (·.input_with_cache)).sum,
          ((e :: es).map (·.input_without_cache)).sum,
          ((e :: es).map (·.cache_read)).sum,
          ((e :: es).map (·.output)).sum,
          ((e :: es).map (·.total_tokens)).sum,
          ((e :: es).map (·.cost)).sum,
          (e :: es).length,
          e.included_in_subscription⟩) :=
  c2_cursor_key_grouping []
    "nokey"
    ⟨"2024-01-01", "u", "chat", "gpt-4", 1, 0, 0, 0, 1, 0, false⟩
    ⟨"2024-01-01", "v", "chat", "gpt-4", 2, 0, 0, 0, 2, 0, false⟩
    ⟨rfl, rfl, rfl, rfl⟩

/-- C2 counterexample: the events `(model "a_b", kind "c")` and
`(model "a", kind "b_c")` disagree on model and kind, yet their key
strings collide (`2024-01-01_a_b_c_False`), so the aggregation merges
them into a single record — refuting the claimed "only if" direction. -/
theorem c2_counterexample :
    (aggregate_cursor_data_for_api
      [⟨"2024-01-01", "u", "c", "a_b", 1, 0, 0, 0, 1, 0, false⟩,
       ⟨"2024-01-01", "u", "b_c", "a", 2, 0, 0, 0, 2, 0, false⟩]).length = 1
    ∧ (⟨"2024-01-01", "u", "c", "a_b", 1, 0, 0, 0, 1, 0, false⟩ : UsageEvent).model ≠
      (⟨"2024-01-01", "u", "b_c", "a", 2, 0, 0, 0, 2, 0, false⟩ : UsageEvent).model
    ∧ aggKey ⟨"2024-01-01", "u", "c", "a_b", 1, 0, 0, 0, 1, 0, false⟩ =
      aggKey ⟨"2024-01-01", "u", "b_c", "a", 2, 0, 0, 0, 2, 0, false⟩ := by
  refine ⟨rfl, by decide, rfl⟩

/-- **C3 (amended).** Splitting an event list into two batches,
aggregating each and merging by key with field-wise addition of the seven
additive metrics gives, under every key, the same record as aggregating
the whole list; and the per-key metric sums (though not the descriptive
fields, which come from the first event inserted under each key) are
independent of the order of the input events. -/
theorem c3_split_merge_and_order (l1 l2 l lp : List UsageEvent) (hp : l.Perm lp)
    (k k2 : String) :
    lookupA k (mergeAgg (aggregate_cursor_data_for_api l1) (aggregate_cursor_data_for_api l2)) =
      lookupA k (aggregate_cursor_data_for_api (l1 ++ l2))
    ∧ (lookupA k2 (aggregate_cursor_data_for_api l)).map CursorAggRecord.metrics =
      (lookupA k2 (aggregate_cursor_data_for_api lp)).map CursorAggRecord.metrics :=
  ⟨cursor_agg_merge_split l1 l2 k, cursor_agg_metrics_perm hp k2⟩

/-- Witness for C3 on concrete batches and a concrete transposition. -/
theorem c3_witness :
    lookupA "2024-01-01_m_chat_False"
        (mergeAgg
          (aggregate_cursor_data_for_api
            [⟨"2024-01-01", "u", "chat", "m", 1, 2, 3, 4, 10, 0, false⟩])
          (aggregate_cursor_data_for_api
            [⟨"2024-01-01", "u", "chat", "m", 5, 6, 7, 8, 26, 0, false⟩])) =
      lookupA "2024-01-01_m_chat_False"
        (aggregate_cursor_data_for_api
          ([⟨"2024-01-01", "u", "chat", "m", 1, 2, 3, 4, 10, 0, false⟩] ++
           [⟨"2024-01-01", "u", "chat", "m", 5, 6, 7, 8, 26, 0, false⟩]))
    ∧ (lookupA "2024-01-01_m_chat_False"
        (aggregate_cursor_data_for_api
          [⟨"2024-01-01", "u", "chat", "m", 1, 2, 3, 4, 10, 0, false⟩,
           ⟨"2024-01-01", "u", "chat", "m", 5, 6, 7, 8, 26, 0, false⟩])).map
        CursorAggRecord.metrics =
      (lookupA "2024-01-01_m_chat_False"
        (aggregate_cursor_data_for_api
          [⟨"2024-01-01", "u", "chat", "m", 5, 6, 7, 8, 26, 0, false⟩,
           ⟨"2024-01-01", "u", "chat", "m", 1, 2, 3, 4, 10, 0, false⟩])).map
        CursorAggRecord.metrics :=
  c3_split_merge_and_order
    [⟨"2024-01-01", "u", "chat", "m", 1, 2, 3, 4, 10, 0, false⟩]
    [⟨"2024-01-01", "u", "chat", "m", 5, 6, 7, 8, 26, 0, false⟩]
    [⟨"2024-01-01", "u", "chat", "m", 1, 2, 3, 4, 10, 0, false⟩,
     ⟨"2024-01-01", "u", "chat", "m", 5, 6, 7, 8, 26, 0, false⟩]
    [⟨"2024-01-01", "u", "chat", "m", 5, 6, 7, 8, 26, 0, false⟩,
     ⟨"2024-01-01", "u", "chat", "m", 1, 2, 3, 4, 10, 0, false⟩]
    (List.Perm.swap
      (⟨"2024-01-01", "u", "chat", "m", 5, 6, 7, 8, 26, 0, false⟩ : UsageEvent)
      (⟨"2024-01-01", "u", "chat", "m", 1, 2, 3, 4, 10, 0, false⟩ : UsageEvent) [])
    "2024-01-01_m_chat_False" "2024-01-01_m_chat_False"

/-- C3 counterexample: with the colliding keys of `c2_counterexample`,
reversing the input order changes the record stored under the shared key
(its `model` field comes from whichever event arrived first), so the full
result is not order independent. -/
theorem c3_counterexample :
    (lookupA "2024-01-01_a_b_c_False"
      (aggregate_cursor_data_for_api
        [⟨"2024-01-01", "x", "c", "a_b", 1, 0, 0, 0, 1, 0, false⟩,
         ⟨"2024-01-01", "x", "b_c", "a", 2, 0, 0, 0, 2, 0, false⟩])).map (·.model) ≠
    (lookupA "2024-01-01_a_b_c_False"
      (aggregate_cursor_data_for_api
        [⟨"2024-01-01", "x", "b_c", "a", 2, 0, 0, 0, 2, 0, false⟩,
         ⟨"2024-01-01", "x", "c", "a_b", 1, 0, 0, 0, 1, 0, false⟩])).map (·.model) := by
  decide

/-- **C4 (amended).** `calculate_billing_period_usage` counts an event
toward the totals and the per-model breakdown iff its date parses and
satisfies `period_start <= date <= period_end` — the *closed* interval the
source tests, so an event dated exactly `period_end` is included. -/
theorem c4_billing_interval (events : List UsageEvent) (ps pe : PyDateTime) :
    (calculate_billing_period_usage events ps pe).total_requests =
        (events.filter (eventInPeriod ps pe)).length
    ∧ (calculate_billing_period_usage events ps pe).total_tokens =
        ((events.filter (eventInPeriod ps pe)).map (·.total_tokens)).sum
    ∧ (calculate_billing_period_usage events ps pe).total_cost =
        ((events.filter (eventInPeriod ps pe)).map (·.cost)).sum
    ∧ (∀ m, lookupA m (calculate_billing_period_usage events ps pe).model_usage =
        (match (events.filter (eventInPeriod ps pe)).filter (fun e => e.model == m) with
        | [] => none
        | e :: es =>
          some ⟨(e :: es).length, ((e :: es).map (·.total_tokens)).sum,
            ((e :: es).map (·.cost)).sum⟩))
    ∧ (∀ e, eventInPeriod ps pe e = true ↔
        ∃ d, parseEventDate e.date = some d ∧ pyLe ps d = some true ∧
          pyLe d pe = some true) := by
  refine ⟨?_, ?_, ?_, billing_model_usage_lookup events ps pe, ?_⟩
  · unfold calculate_billing_period_usage; rw [billing_foldl]; simp
  · unfold calculate_billing_period_usage; rw [billing_foldl]; simp
  · unfold calculate_billing_period_usage; rw [billing_foldl]; simp
  · intro e
    simp only [eventInPeriod]
    cases h1 : parseEventDate e.date with
    | none => simp
    | some d =>
      cases h2 : pyLe ps d with
      | none => simp [h2]
      | some b1 =>
        cases b1 with
        | false => simp [h2]
        | true =>
          cases h3 : pyLe d pe with
          | none => simp [h2, h3]
          | some b2 => cases b2 <;> simp [h2, h3]

/-- C4 counterexample: the claim says an event whose parsed date equals
`period_end` exactly is excluded, but the source's closed-interval test
counts it: this event dated exactly at the period end is counted once. -/
theorem c4_counterexample :
    parseEventDate "2024-02-01T00:00:00Z" = some (⟨2024, 2, 1, 0, 0, 0, 0⟩, some 0)
    ∧ (calculate_billing_period_usage
        [⟨"2024-02-01T00:00:00Z", "u", "k", "m", 0, 0, 0, 0, 7, 0, false⟩]
        (⟨2024, 1, 1, 0, 0, 0, 0⟩, some 0)
        (⟨2024, 2, 1, 0, 0, 0, 0⟩, some 0)).total_requests = 1 :=
  ⟨by decide, by decide⟩

/-- **C6.** `aggregate_claude_data_for_api` contributes, per dict day
entry, one record per distinct (defaulted) model name with the summed
metrics of that day's breakdowns — in particular the specification's
two-breakdown `m1` scenario aggregates to a single record with
`input_tokens = 7`, `output_tokens = 4`, `cost = 0.15`. -/
theorem c6_claude_grouping (u : CcusageData) (bs : List (Option ModelBreakdown))
    (m : String) :
    (aggregate_claude_data_for_api u).daily_aggregates =
      u.daily.flatMap (fun od =>
        match od with
        | none => []
        | some day =>
          (modelAggregatesForDay day.modelBreakdowns).map (fun p => ⟨day.date, p.1, p.2⟩))
    ∧ lookupA m (modelAggregatesForDay bs) =
      (match (bs.filterMap id).filter (fun b => b.modelName.getD "unknown" == m) with
      | [] => none
      | b :: rest =>
        some ⟨((b :: rest).map (fun x => x.inputTokens.getD 0)).sum,
          ((b :: rest).map (fun x => x.outputTokens.getD 0)).sum,
          ((b :: rest).map (fun x => x.cacheCreationTokens.getD 0)).sum,
          ((b :: rest).map (fun x => x.cacheReadTokens.getD 0)).sum,
          ((b :: rest).map (fun x => x.totalTokens.getD 0)).sum,
          ((b :: rest).map (fun x => x.cost.getD 0)).sum⟩)
    ∧ aggregate_claude_data_for_api
        ⟨[some ⟨some "2024-01-01",
          [some ⟨some "m1", some 5, some 3, none, none, none, some (1/10 : ℚ)⟩,
           some ⟨some "m1", some 2, some 1, none, none, none, some (1/20 : ℚ)⟩]⟩], []⟩ =
      ⟨[⟨some "2024-01-01", "m1", ⟨7, 4, 0, 0, 0, 3/20⟩⟩], []⟩ := by
  refine ⟨claude_daily_eq_flatMap u, claude_day_lookup bs m, ?_⟩
  norm_num [aggregate_claude_data_for_api, modelAggregatesForDay, upsertWith,
    addBreakdown, zeroClaudeMetrics]

/-- **C8 (amended).** For anchors whose day of month is at most 28 (so
`datetime.replace` never raises), `get_current_billing_period` returns,
within `billingFuel` iterations, a pair `(ps, pe)` with `pe` exactly one
month after `ps` and `ps ≤ now < pe`, provided `anchor ≤ now`; when
`now < anchor` the loop never returns, whatever the fuel.  Anchors with
day 29-31 can instead raise `ValueError` (see the counterexample). -/
theorem c8_billing_period_loop (anchor now : DT) (fuel : Nat)
    (hm1 : 1 ≤ anchor.month) (hm2 : anchor.month ≤ 12)
    (hd1 : 1 ≤ anchor.day) (hd2 : anchor.day ≤ 28)
    (hn1 : 1 ≤ now.month) (hn2 : now.month ≤ 12) :
    (dtLe anchor now = true →
      billingOk now (get_current_billing_period (billingFuel anchor now) anchor now))
    ∧ (dtLe anchor now = false → get_current_billing_period fuel anchor now = none) := by
  constructor
  · intro hle
    have hmi := monthIndex_le_of_dtLe hm2 hn1 hle
    have hbf : billingFuel anchor now = (monthIndex now + 1 - monthIndex anchor) + 1 := by
      unfold billingFuel; omega
    rw [hbf]
    exact billing_loop_ok now hn1 hn2 _ anchor hm1 hm2 hd1 hd2 hle (by omega)
  · intro hle
    exact billing_loop_none now fuel anchor hm1 hm2 hd1 hd2 hle

/-- Witness for C8 at the default anchor 2024-09-28 and a later `now`. -/
theorem c8_witness :
    billingOk ⟨2025, 10, 12, 0, 0, 0, 0⟩
      (get_current_billing_period
        (billingFuel ⟨2024, 9, 28, 0, 0, 0, 0⟩ ⟨2025, 10, 12, 0, 0, 0, 0⟩)
        ⟨2024, 9, 28, 0, 0, 0, 0⟩ ⟨2025, 10, 12, 0, 0, 0, 0⟩) :=
  (c8_billing_period_loop ⟨2024, 9, 28, 0, 0, 0, 0⟩ ⟨2025, 10, 12, 0, 0, 0, 0⟩ 1
    (by decide) (by decide) (by decide) (by decide) (by decide) (by decide)).1 (by decide)

/-- C8 counterexample: for the day-31 anchor 2024-01-31 with `now` equal
to the anchor (so `anchor ≤ now`), the first `replace` builds February 31
and raises `ValueError` instead of returning a pair. -/
theorem c8_counterexample :
    dtLe ⟨2024, 1, 31, 0, 0, 0, 0⟩ ⟨2024, 1, 31, 0, 0, 0, 0⟩ = true
    ∧ get_current_billing_period 100 ⟨2024, 1, 31, 0, 0, 0, 0⟩ ⟨2024, 1, 31, 0, 0, 0, 0⟩ =
        some BillingPeriodResult.valueError :=
  ⟨by decide, by decide⟩

/-- **C10.** Day entries that are not dictionaries, and dict days whose
`modelBreakdowns` list is missing or empty, contribute no record to
`daily_aggregates` — removing them leaves the aggregate list unchanged —
while `totals` is passed through verbatim. -/
theorem c10_empty_days (u : CcusageData) :
    (aggregate_claude_data_for_api u).daily_aggregates =
      (aggregate_claude_data_for_api ⟨u.daily.filter keepDay, u.totals⟩).daily_aggregates
    ∧ (aggregate_claude_data_for_api u).totals = u.totals := by
  refine ⟨?_, rfl⟩
  rw [claude_daily_eq_flatMap, claude_daily_eq_flatMap]
  obtain ⟨l, t⟩ := u
  simp only
  induction l with
  | nil => rfl
  | cons od l ih =>
    cases od with
    | none => simpa [keepDay] using ih
    | some day =>
      by_cases hbe : day.modelBreakdowns.isEmpty
      · have hnil : day.modelBreakdowns = [] := List.isEmpty_iff.mp hbe
        simpa [keepDay, hbe, hnil, modelAggregatesForDay] using ih
      · simp [keepDay, hbe, ih]
